import Mathlib

/-!
# Verification of the IR-to-TypeScript translator

A shallow embedding of `packages/compiler-cli/src/ngtsc/translator/src/translator.ts`:
the `Context` value, the `ImportManager`, the expression-translator visitor methods
involved in the verified properties, and the shared localized-string helper.
IR nodes and output nodes are modelled as inductive types; the TypeScript `Map`s
(`specifierToIdentifier`, `externalSourceFiles`) are modelled as insertion-ordered
association lists, which matches the iteration order of a JavaScript `Map`.
Thrown JavaScript errors are modelled with `Except`: `TransError.thrown` for an
explicit `throw new Error(...)`, and `TransError.nullDereference` for a runtime
failure caused by calling a method on `null` (a non-null assertion `!` erased at
runtime).
-/

/-- Source `class Context` (translator.ts:15-21). -/
structure Context where
  isStatement : Bool
deriving Repr, DecidableEq

/-- Source `get withExpressionMode` (translator.ts:18). -/
def Context.withExpressionMode (c : Context) : Context :=
  if c.isStatement then ⟨false⟩ else c

/-- Source `get withStatementMode` (translator.ts:20). -/
def Context.withStatementMode (c : Context) : Context :=
  if !c.isStatement then ⟨true⟩ else c

/-- The `ImportRewriter` collaborator interface (declared in `../../imports`,
outside this core; the spec describes its three operations). -/
structure ImportRewriter where
  rewriteSymbol : String → String → String
  shouldImportSymbol : String → String → Bool
  rewriteSpecifier : String → String → String

/-- Modelled from the spec: the `NoopImportRewriter` default collaborator
(declared in `../../imports`, outside this core) — "a no-op default
(identity symbol, always-import, identity specifier)". -/
def NoopImportRewriter : ImportRewriter :=
  { rewriteSymbol := fun s _ => s
    shouldImportSymbol := fun _ _ => true
    rewriteSpecifier := fun s _ => s }

/-- Source `interface NamedImport` (translator.ts:56-61). -/
structure NamedImport where
  moduleImport : Option String
  symbol : String
deriving Repr, DecidableEq

/-- Source `interface Import` (translator.ts:45-50). -/
structure Import where
  specifier : String
  qualifier : String
deriving Repr, DecidableEq

/-- Source `class ImportManager` (translator.ts:63-99).  The field written
`prefix` in the source is named `pfx` here (`prefix` is not a usable
identifier in this development); the `Map` is an insertion-ordered
association list. -/
structure ImportManager where
  rewriter : ImportRewriter
  pfx : String
  specifierToIdentifier : List (String × String)
  nextIndex : Nat

/-- Source `ImportManager.generateNamedImport` (translator.ts:70-89), returning
the result together with the updated manager state. -/
def ImportManager.generateNamedImport (im : ImportManager) (moduleName originalSymbol : String) :
    NamedImport × ImportManager :=
  let symbol := im.rewriter.rewriteSymbol originalSymbol moduleName
  if !im.rewriter.shouldImportSymbol symbol moduleName then
    ({ moduleImport := none, symbol := symbol }, im)
  else
    let im' :=
      if (im.specifierToIdentifier.lookup moduleName).isNone then
        { im with
          specifierToIdentifier :=
            im.specifierToIdentifier ++ [(moduleName, im.pfx ++ Nat.repr im.nextIndex)]
          nextIndex := im.nextIndex + 1 }
      else im
    let moduleImport := (im'.specifierToIdentifier.lookup moduleName).getD ""
    ({ moduleImport := some moduleImport, symbol := symbol }, im')

/-- Source `ImportManager.getAllImports` (translator.ts:91-98). -/
def ImportManager.getAllImports (im : ImportManager) (contextPath : String) : List Import :=
  im.specifierToIdentifier.map fun q =>
    { specifier := im.rewriter.rewriteSpecifier q.1 contextPath, qualifier := q.2 }

/-- A fresh `ImportManager` as built by the source constructor
(translator.ts:67-68) with an explicit rewriter and module-alias prefix. -/
def mkImportManager (rw : ImportRewriter) (p : String) : ImportManager :=
  { rewriter := rw, pfx := p, specifierToIdentifier := [], nextIndex := 0 }

/-- An `ImportManager` built with the source constructor's default arguments:
the no-op rewriter and prefix `"i"`. -/
def newImportManager : ImportManager :=
  mkImportManager NoopImportRewriter "i"

/-- Source `ParseSourceFile` identity as used by `setSourceMapRange`
(translator.ts:379: `const {url, content} = start.file`). -/
structure ParseSourceFile where
  url : String
  content : String
deriving Repr, DecidableEq

/-- An IR node's optional source span: start and end offsets into one source
file (`ast.sourceSpan` with `start.offset`, `end.offset`, `start.file`). -/
structure SourceSpan where
  startOffset : Nat
  endOffset : Nat
  file : ParseSourceFile
deriving Repr, DecidableEq

/-- IR literal values (`LiteralExpr.value`): `undefined` and `null` are
distinguished from all other primitive values (translator.ts:251-262). -/
inductive LitValue where
  | undef
  | nullVal
  | intVal (n : Int)
  | strVal (s : String)
  | boolVal (b : Bool)
deriving Repr, DecidableEq

/-- The IR expression nodes visited by the claims under verification.  Each
carries the optional `sourceSpan` of the corresponding `@angular/compiler`
node.  `externalExpr` holds the `ExternalReference`'s `moduleName` and `name`
(both nullable); `conditional.falseCase` is nullable in the IR
(`falseCase: Expression|null`). -/
inductive Expr where
  | readVar (name : String) (sourceSpan : Option SourceSpan)
  | writeVar (name : String) (value : Expr) (sourceSpan : Option SourceSpan)
  | writeKey (receiver index value : Expr) (sourceSpan : Option SourceSpan)
  | writeProp (receiver : Expr) (name : String) (value : Expr) (sourceSpan : Option SourceSpan)
  | literal (value : LitValue) (sourceSpan : Option SourceSpan)
  | externalExpr (moduleName : Option String) (name : Option String)
      (sourceSpan : Option SourceSpan)
  | conditional (condition trueCase : Expr) (falseCase : Option Expr)
      (sourceSpan : Option SourceSpan)
  | notExpr (condition : Expr) (sourceSpan : Option SourceSpan)
  | binaryOp (operator : Nat) (lhs rhs : Expr) (sourceSpan : Option SourceSpan)
  | readProp (receiver : Expr) (name : String) (sourceSpan : Option SourceSpan)
  | readKey (receiver index : Expr) (sourceSpan : Option SourceSpan)
  | typeofExpr (expr : Expr) (sourceSpan : Option SourceSpan)
deriving Repr

/-! The numeric tags of the `BinaryOperator` enum of `@angular/compiler`
(a TypeScript enum is a numeric tag set; the enum itself is upstream of this
core, which treats it as a fixed input grammar). -/

namespace BinaryOperator

def Equals : Nat := 0

def NotEquals : Nat := 1

def Identical : Nat := 2

def NotIdentical : Nat := 3

def Minus : Nat := 4

def Plus : Nat := 5

def Divide : Nat := 6

def Multiply : Nat := 7

def Modulo : Nat := 8

def And : Nat := 9

def Or : Nat := 10

def BitwiseAnd : Nat := 11

def Lower : Nat := 12

def LowerEquals : Nat := 13

def Bigger : Nat := 14

def BiggerEquals : Nat := 15

end BinaryOperator

/-- The reverse enum lookup `BinaryOperator[op]` used in the error message of
`visitBinaryOperatorExpr` (translator.ts:328); a tag outside the enum yields
`undefined`, which a template literal renders as the text `"undefined"`. -/
def binaryOperatorName (op : Nat) : String :=
  if op = BinaryOperator.Equals then "Equals"
  else if op = BinaryOperator.NotEquals then "NotEquals"
  else if op = BinaryOperator.Identical then "Identical"
  else if op = BinaryOperator.NotIdentical then "NotIdentical"
  else if op = BinaryOperator.Minus then "Minus"
  else if op = BinaryOperator.Plus then "Plus"
  else if op = BinaryOperator.Divide then "Divide"
  else if op = BinaryOperator.Multiply then "Multiply"
  else if op = BinaryOperator.Modulo then "Modulo"
  else if op = BinaryOperator.And then "And"
  else if op = BinaryOperator.Or then "Or"
  else if op = BinaryOperator.BitwiseAnd then "BitwiseAnd"
  else if op = BinaryOperator.Lower then "Lower"
  else if op = BinaryOperator.LowerEquals then "LowerEquals"
  else if op = BinaryOperator.Bigger then "Bigger"
  else if op = BinaryOperator.BiggerEquals then "BiggerEquals"
  else "undefined"

/-- The `ts.BinaryOperator` tokens appearing in the static operator table,
plus `equals` (`ts.SyntaxKind.EqualsToken`) used for assignments. -/
inductive TsBinaryOperatorToken where
  | ampAmp
  | greaterThan
  | greaterThanEquals
  | amp
  | slash
  | equalsEquals
  | equalsEqualsEquals
  | lessThan
  | lessThanEquals
  | minus
  | percent
  | asterisk
  | exclamationEquals
  | exclamationEqualsEquals
  | barBar
  | plus
  | equals
deriving Repr, DecidableEq

/-- Source `BINARY_OPERATORS` static map (translator.ts:23-40), as a lookup
function on the numeric operator tag. -/
def BINARY_OPERATORS (op : Nat) : Option TsBinaryOperatorToken :=
  if op = BinaryOperator.And then some .ampAmp
  else if op = BinaryOperator.Bigger then some .greaterThan
  else if op = BinaryOperator.BiggerEquals then some .greaterThanEquals
  else if op = BinaryOperator.BitwiseAnd then some .amp
  else if op = BinaryOperator.Divide then some .slash
  else if op = BinaryOperator.Equals then some .equalsEquals
  else if op = BinaryOperator.Identical then some .equalsEqualsEquals
  else if op = BinaryOperator.Lower then some .lessThan
  else if op = BinaryOperator.LowerEquals then some .lessThanEquals
  else if op = BinaryOperator.Minus then some .minus
  else if op = BinaryOperator.Modulo then some .percent
  else if op = BinaryOperator.Multiply then some .asterisk
  else if op = BinaryOperator.NotEquals then some .exclamationEquals
  else if op = BinaryOperator.NotIdentical then some .exclamationEqualsEquals
  else if op = BinaryOperator.Or then some .barBar
  else if op = BinaryOperator.Plus then some .plus
  else none

/-- A source-map range as attached by `ts.setSourceMapRange`
(translator.ts:385): start offset, end offset, and the cached
`ts.SourceMapSource` handle, identified by its allocation number so that
"the same handle object" is expressible. -/
structure SMRange where
  pos : Nat
  endPos : Nat
  source : Nat
deriving Repr, DecidableEq

/-- The kind of a template span's trailing literal piece
(`ts.SyntaxKind.TemplateMiddle` vs `ts.SyntaxKind.TemplateTail`). -/
inductive TemplatePartKind where
  | middle
  | tail
deriving Repr, DecidableEq

/-- The produced TypeScript expression nodes.  `annotated` records a
`ts.setSourceMapRange` annotation on the wrapped node.  A template span is a
triple (translated embedded expression, literal text, literal kind); the two
tagged-template constructors correspond to `ts.createTaggedTemplate` applied
to a `NoSubstitutionTemplateLiteral` or to a `TemplateExpression`. -/
inductive TsExpr where
  | ident (name : String)
  | nullLit
  | lit (value : LitValue)
  | binary (lhs : TsExpr) (op : TsBinaryOperatorToken) (rhs : TsExpr)
  | paren (e : TsExpr)
  | propAccess (receiver : TsExpr) (name : String)
  | elemAccess (receiver index : TsExpr)
  | cond (condition whenTrue whenFalse : TsExpr)
  | prefixNot (operand : TsExpr)
  | typeofE (operand : TsExpr)
  | annotated (range : SMRange) (e : TsExpr)
  | taggedNoSubTemplate (tag : TsExpr) (text : String)
  | taggedTemplateExpr (tag : TsExpr) (head : String)
      (spans : List (TsExpr × String × TemplatePartKind))
deriving Repr

/-- A template span of the produced tagged template. -/
abbrev TemplateSpan := TsExpr × String × TemplatePartKind

/-- Whether a produced node is wrapped in parentheses (`ts.createParen`). -/
def TsExpr.isParen : TsExpr → Bool
  | .paren _ => true
  | _ => false

/-- Whether a produced node carries a source-map annotation. -/
def TsExpr.isAnnotated : TsExpr → Bool
  | .annotated _ _ => true
  | _ => false

/-- Errors raised during translation: an explicit `throw new Error(message)`,
or the runtime failure of invoking a method on `null` behind an erased
non-null assertion. -/
inductive TransError where
  | thrown (message : String)
  | nullDereference
deriving Repr, DecidableEq

/-- The mutable state of one `ExpressionTranslatorVisitor`
(translator.ts:121-125): its `ImportManager` and the per-file-URL
`externalSourceFiles` cache, plus a counter allocating handle identities for
`ts.createSourceMapSource` objects.  `scriptTarget` is the visitor's target
level (unused by the visits embedded here, which are target-independent). -/
structure VisitorState where
  imports : ImportManager
  externalSourceFiles : List (String × Nat)
  nextHandleId : Nat
  scriptTarget : Nat

/-- Source `ExpressionTranslatorVisitor.setSourceMapRange`
(translator.ts:376-388): no span or an empty file URL leaves the node
unannotated; otherwise the source handle is fetched from the per-URL cache
(populated on first encounter) and the node is annotated with the span's
offsets and that handle. -/
def setSourceMapRange (st : VisitorState) (expr : TsExpr) (sourceSpan : Option SourceSpan) :
    TsExpr × VisitorState :=
  match sourceSpan with
  | none => (expr, st)
  | some sp =>
    if sp.file.url = "" then (expr, st)
    else
      match st.externalSourceFiles.lookup sp.file.url with
      | some h => (.annotated ⟨sp.startOffset, sp.endOffset, h⟩ expr, st)
      | none =>
        let h := st.nextHandleId
        (.annotated ⟨sp.startOffset, sp.endOffset, h⟩ expr,
          { st with
            externalSourceFiles := st.externalSourceFiles ++ [(sp.file.url, h)]
            nextHandleId := h + 1 })

/-- The expression-visitor dispatch of `ExpressionTranslatorVisitor` over the
embedded node kinds, following the source method bodies line by line
(translator.ts:196-374).  State (imports, source-file cache) threads left to
right in the evaluation order of the TypeScript expressions. -/
def visitExpr : Expr → Context → VisitorState → Except TransError (TsExpr × VisitorState)
  | .readVar name sourceSpan, _, st =>
    .ok (setSourceMapRange st (.ident name) sourceSpan)
  | .writeVar name value _, ctx, st => do
    let (v, st1) ← visitExpr value ctx st
    let result := TsExpr.binary (.ident name) .equals v
    .ok (if ctx.isStatement then result else .paren result, st1)
  | .writeKey receiver index value _, ctx, st => do
    let exprContext := ctx.withExpressionMode
    let (r, st1) ← visitExpr receiver exprContext st
    let (i, st2) ← visitExpr index exprContext st1
    let lhs := TsExpr.elemAccess r i
    let (rhs, st3) ← visitExpr value exprContext st2
    let result := TsExpr.binary lhs .equals rhs
    .ok (if ctx.isStatement then result else .paren result, st3)
  | .writeProp receiver name value _, ctx, st => do
    let (r, st1) ← visitExpr receiver ctx st
    let (v, st2) ← visitExpr value ctx st1
    .ok (TsExpr.binary (.propAccess r name) .equals v, st2)
  | .literal value sourceSpan, _, st =>
    let expr :=
      match value with
      | .undef => TsExpr.ident "undefined"
      | .nullVal => TsExpr.nullLit
      | v => TsExpr.lit v
    .ok (setSourceMapRange st expr sourceSpan)
  | .externalExpr moduleName name _, _, st =>
    match name with
    | none => .error (.thrown "Import unknown module or symbol")
    | some n =>
      match moduleName with
      | some mn =>
        let (ni, im') := st.imports.generateNamedImport mn n
        match ni.moduleImport with
        | none => .ok (.ident ni.symbol, { st with imports := im' })
        | some moduleImport =>
          .ok (.propAccess (.ident moduleImport) ni.symbol, { st with imports := im' })
      | none => .ok (.ident n, st)
  | .conditional condition trueCase falseCase _, ctx, st => do
    let (c, st1) ← visitExpr condition ctx st
    let (t, st2) ← visitExpr trueCase ctx st1
    match falseCase with
    | none => .error .nullDereference
    | some f => do
      let (fe, st3) ← visitExpr f ctx st2
      .ok (.cond c t fe, st3)
  | .notExpr condition _, ctx, st => do
    let (c, st1) ← visitExpr condition ctx st
    .ok (.prefixNot c, st1)
  | .binaryOp operator lhs rhs _, ctx, st =>
    match BINARY_OPERATORS operator with
    | none => .error (.thrown ("Unknown binary operator: " ++ binaryOperatorName operator))
    | some tok => do
      let (l, st1) ← visitExpr lhs ctx st
      let (r, st2) ← visitExpr rhs ctx st1
      .ok (.binary l tok r, st2)
  | .readProp receiver name _, ctx, st => do
    let (r, st1) ← visitExpr receiver ctx st
    .ok (.propAccess r name, st1)
  | .readKey receiver index _, ctx, st => do
    let (r, st1) ← visitExpr receiver ctx st
    let (i, st2) ← visitExpr index ctx st1
    .ok (.elemAccess r i, st2)
  | .typeofExpr expr _, ctx, st => do
    let (e, st1) ← visitExpr expr ctx st
    .ok (.typeofE e, st1)

/-- A fresh visitor state bound to the default `ImportManager`, targeting
ES2015. -/
def initState : VisitorState :=
  { imports := newImportManager
    externalSourceFiles := []
    nextHandleId := 0
    scriptTarget := 2 }

example :
    visitExpr (.writeVar "x" (.literal (.intVal 1) none) none) ⟨true⟩ initState
      = .ok (.binary (.ident "x") .equals (.lit (.intVal 1)), initState) := rfl

example :
    visitExpr (.writeVar "x" (.literal (.intVal 1) none) none) ⟨false⟩ initState
      = .ok (.paren (.binary (.ident "x") .equals (.lit (.intVal 1))), initState) := rfl

/-- The `LocalizedString` IR node as consumed by the shared helper: its ordered
message parts and embedded sub-expressions. -/
structure LocalizedString where
  messageParts : List String
  expressions : List Expr

/-- Modelled from the spec: `LocalizedString.serializeI18nHead` lives in
`@angular/compiler` (outside this core); per the spec the head corresponds to
the first message part. -/
def LocalizedString.serializeI18nHead (ast : LocalizedString) : String :=
  ast.messageParts.headD ""

/-- Modelled from the spec: `LocalizedString.serializeI18nTemplatePart i`
lives in `@angular/compiler` (outside this core); per the spec the span built
at loop index `i` pairs with message part `i`. -/
def LocalizedString.serializeI18nTemplatePart (ast : LocalizedString) (i : Nat) : String :=
  ast.messageParts.getD i ""

/-- The span-building loop of the helper (translator.ts:564-569):
`for (let i = 1; i < ast.messageParts.length; i++)` with `count` remaining
iterations, each visiting `ast.expressions[i - 1]` through the passed-in
visitor and pairing it with template part `i` as a `TemplateMiddle`.  An
out-of-range element access yields `undefined`, on which the subsequent
`visitExpression` call fails. -/
def localizedSpans (visit : Expr → Context → VisitorState → Except TransError (TsExpr × VisitorState))
    (ast : LocalizedString) (ctx : Context) :
    Nat → Nat → VisitorState → Except TransError (List TemplateSpan × VisitorState)
  | _, 0, st => .ok ([], st)
  | i, count + 1, st =>
    match ast.expressions.get? (i - 1) with
    | none => .error .nullDereference
    | some e =>
      (visit e ctx st).bind fun rp =>
        (localizedSpans visit ast ctx (i + 1) count rp.2).map fun sp =>
          ((rp.1, ast.serializeI18nTemplatePart i, TemplatePartKind.middle) :: sp.1, sp.2)

/-- The post-loop correction (translator.ts:570-573): the literal of the last
span is re-tagged as a `TemplateTail`; an empty span list is left alone. -/
def retagLast : List TemplateSpan → List TemplateSpan
  | [] => []
  | [(e, l, _)] => [(e, l, TemplatePartKind.tail)]
  | s :: rest => s :: retagLast rest

/-- Source helper `visitLocalizedString` (translator.ts:556-577), parametrized
by the invoking visitor exactly as the source is: a single message part
yields a no-substitution template, otherwise head plus spans with the last
span's literal re-tagged as a tail; either template is wrapped in a tagged
template with the reserved `$localize` tag. -/
def visitLocalizedString
    (visit : Expr → Context → VisitorState → Except TransError (TsExpr × VisitorState))
    (ast : LocalizedString) (ctx : Context) (st : VisitorState) :
    Except TransError (TsExpr × VisitorState) :=
  if ast.messageParts.length = 1 then
    .ok (.taggedNoSubTemplate (.ident "$localize") ast.serializeI18nHead, st)
  else
    (localizedSpans visit ast ctx 1 (ast.messageParts.length - 1) st).map fun sp =>
      (.taggedTemplateExpr (.ident "$localize") ast.serializeI18nHead (retagLast sp.1), sp.2)

/-- Visiting a list of expressions in order through a visitor, threading the
state; used to phrase hypotheses about the embedded expressions of a
localized string. -/
def visitSeq (visit : Expr → Context → VisitorState → Except TransError (TsExpr × VisitorState))
    (ctx : Context) :
    List Expr → VisitorState → Except TransError (List TsExpr × VisitorState)
  | [], st => .ok ([], st)
  | e :: rest, st =>
    (visit e ctx st).bind fun rp =>
      (visitSeq visit ctx rest rp.2).map fun sp => (rp.1 :: sp.1, sp.2)

/-- Running a sequence of `generateNamedImport` calls
(moduleName, originalSymbol) against an `ImportManager`, keeping the final
state. -/
def runCalls (im : ImportManager) : List (String × String) → ImportManager
  | [] => im
  | c :: rest => runCalls (im.generateNamedImport c.1 c.2).2 rest

/-- Whether one `generateNamedImport` call requires an import under rewriter
`rw`: the rewritten symbol passes `shouldImportSymbol`.  This is exactly the
condition of the early return in translator.ts:76-79. -/
def shouldAllocate (rw : ImportRewriter) (c : String × String) : Bool :=
  rw.shouldImportSymbol (rw.rewriteSymbol c.2 c.1) c.1

/-- The modules a call sequence imports, each listed once at its first
allocation, given the modules already `seen` (present in the manager). -/
def newlyImported (rw : ImportRewriter) (seen : List String) :
    List (String × String) → List String
  | [] => []
  | c :: rest =>
    if shouldAllocate rw c && !(seen.contains c.1) then
      c.1 :: newlyImported rw (c.1 :: seen) rest
    else newlyImported rw seen rest

/-- The alias map entries for modules `mods` numbered consecutively from
`base` with prefix `p`. -/
def aliasEntries (p : String) : Nat → List String → List (String × String)
  | _, [] => []
  | base, m :: rest => (m, p ++ Nat.repr base) :: aliasEntries p (base + 1) rest

/-- The finalized `Import` records for modules `mods` numbered consecutively
from `base`, with each specifier rewritten relative to `contextPath`. -/
def importEntries (rw : ImportRewriter) (p contextPath : String) :
    Nat → List String → List Import
  | _, [] => []
  | base, m :: rest =>
    { specifier := rw.rewriteSpecifier m contextPath, qualifier := p ++ Nat.repr base }
      :: importEntries rw p contextPath (base + 1) rest

/-! ## Decimal rendering of alias sequence numbers

The alias allocated for the `k`-th imported module is the string
`prefix ++ Nat.repr k` (the template literal of translator.ts:84).  Distinct
sequence numbers yield distinct alias strings because the decimal rendering
is injective; this is proved here from the core definition of `Nat.repr`. -/

/-- The numeric value of a decimal digit character. -/
def charToDigit (c : Char) : Nat := c.toNat - 48

/-- The number denoted by a most-significant-first list of decimal digit
characters. -/
def digitsToNat (ds : List Char) : Nat := ds.foldl (fun a c => 10 * a + charToDigit c) 0

lemma digitsToNat_append_singleton (l : List Char) (c : Char) :
    digitsToNat (l ++ [c]) = 10 * digitsToNat l + charToDigit c := by
  simp [digitsToNat, List.foldl_append]

lemma toDigitsCore_accumulator (fuel : Nat) :
    ∀ (n : Nat) (ds : List Char),
      Nat.toDigitsCore 10 fuel n ds = Nat.toDigitsCore 10 fuel n [] ++ ds := by
  induction fuel with
  | zero => intro n ds; simp [Nat.toDigitsCore]
  | succ fuel ih =>
    intro n ds
    simp only [Nat.toDigitsCore]
    by_cases h : n / 10 = 0
    · simp [h]
    · simp only [h, if_false]
      rw [ih (n / 10) [Nat.digitChar (n % 10)], ih (n / 10) (Nat.digitChar (n % 10) :: ds)]
      simp

lemma charToDigit_digitChar (k : Nat) (hk : k < 10) :
    charToDigit (Nat.digitChar k) = k := by
  interval_cases k <;> decide

lemma digitsToNat_toDigitsCore (fuel : Nat) :
    ∀ n : Nat, n < fuel → digitsToNat (Nat.toDigitsCore 10 fuel n []) = n := by
  induction fuel with
  | zero => intro n hn; omega
  | succ fuel ih =>
    intro n hn
    simp only [Nat.toDigitsCore]
    by_cases h : n / 10 = 0
    · have hlt : n < 10 := by omega
      have hmod : n % 10 = n := Nat.mod_eq_of_lt hlt
      simp [h, digitsToNat, hmod, charToDigit_digitChar n hlt]
    · have hfuel : n / 10 < fuel := by
        have h10 : 10 ≤ n := by
          by_contra hc
          exact h (Nat.div_eq_of_lt (by omega))
        have := Nat.div_lt_self (show 0 < n by omega) (show 1 < 10 by omega)
        omega
      simp only [h, if_false]
      rw [toDigitsCore_accumulator fuel (n / 10) [Nat.digitChar (n % 10)],
        digitsToNat_append_singleton, ih (n / 10) hfuel,
        charToDigit_digitChar (n % 10) (Nat.mod_lt n (by omega))]
      omega

lemma natRepr_inj {m n : Nat} (h : Nat.repr m = Nat.repr n) : m = n := by
  have hd : Nat.toDigits 10 m = Nat.toDigits 10 n := by
    have := congrArg String.data h
    simpa [Nat.repr, List.asString] using this
  have hm := digitsToNat_toDigitsCore (m + 1) m (by omega)
  have hn := digitsToNat_toDigitsCore (n + 1) n (by omega)
  rw [show Nat.toDigitsCore 10 (m + 1) m [] = Nat.toDigits 10 m from rfl] at hm
  rw [show Nat.toDigitsCore 10 (n + 1) n [] = Nat.toDigits 10 n from rfl] at hn
  rw [hd] at hm
  omega

lemma append_natRepr_inj {p : String} {m n : Nat}
    (h : p ++ Nat.repr m = p ++ Nat.repr n) : m = n := by
  apply natRepr_inj
  have := congrArg String.data h
  simp only [String.data_append] at this
  exact String.ext (List.append_cancel_left this)

/-! ## Behaviour of `generateNamedImport` and call sequences -/

lemma mem_keys_of_lookup_some {l : List (String × String)} {m a : String}
    (h : l.lookup m = some a) : m ∈ l.map Prod.fst := by
  have hs : (l.lookup m).isSome := by simp [h]
  rw [List.lookup_isSome_iff] at hs
  obtain ⟨p, hp, he⟩ := hs
  have : m = p.1 := by simpa using he
  subst this
  exact List.mem_map_of_mem _ hp

lemma not_mem_keys_of_lookup_none {l : List (String × String)} {m : String}
    (h : l.lookup m = none) : m ∉ l.map Prod.fst := by
  rw [List.lookup_eq_none_iff] at h
  intro hm
  obtain ⟨p, hp, hq⟩ := List.mem_map.mp hm
  have := h p hp
  simp [hq] at this

lemma contains_eq_decide_mem (l : List String) (x : String) :
    l.contains x = decide (x ∈ l) := by
  simp [List.contains]

/-- Shape of a `generateNamedImport` call the rewrite policy elides. -/
lemma generateNamedImport_skip (im : ImportManager) (m s : String)
    (h : im.rewriter.shouldImportSymbol (im.rewriter.rewriteSymbol s m) m = false) :
    im.generateNamedImport m s
      = ({ moduleImport := none, symbol := im.rewriter.rewriteSymbol s m }, im) := by
  simp [ImportManager.generateNamedImport, h]

/-- Shape of a `generateNamedImport` call whose module already has an alias. -/
lemma generateNamedImport_hit (im : ImportManager) (m s a : String)
    (h : im.rewriter.shouldImportSymbol (im.rewriter.rewriteSymbol s m) m = true)
    (hl : im.specifierToIdentifier.lookup m = some a) :
    im.generateNamedImport m s
      = ({ moduleImport := some a, symbol := im.rewriter.rewriteSymbol s m }, im) := by
  simp [ImportManager.generateNamedImport, h, hl]

/-- Shape of a `generateNamedImport` call that allocates a fresh alias. -/
lemma generateNamedImport_miss (im : ImportManager) (m s : String)
    (h : im.rewriter.shouldImportSymbol (im.rewriter.rewriteSymbol s m) m = true)
    (hl : im.specifierToIdentifier.lookup m = none) :
    im.generateNamedImport m s
      = ({ moduleImport := some (im.pfx ++ Nat.repr im.nextIndex),
           symbol := im.rewriter.rewriteSymbol s m },
         { im with
           specifierToIdentifier :=
             im.specifierToIdentifier ++ [(m, im.pfx ++ Nat.repr im.nextIndex)]
           nextIndex := im.nextIndex + 1 }) := by
  simp [ImportManager.generateNamedImport, h, hl, List.lookup_append]

lemma lookup_some_of_not_isNone {l : List (String × String)} {m : String}
    (hx : ¬(l.lookup m).isNone = true) : ∃ a, l.lookup m = some a := by
  rw [Option.isNone_iff_eq_none] at hx
  exact Option.ne_none_iff_exists'.mp hx

lemma generateNamedImport_preserves_fields (im : ImportManager) (m s : String) :
    ((im.generateNamedImport m s).2).rewriter = im.rewriter
    ∧ ((im.generateNamedImport m s).2).pfx = im.pfx := by
  by_cases h : im.rewriter.shouldImportSymbol (im.rewriter.rewriteSymbol s m) m
  · by_cases hx : (im.specifierToIdentifier.lookup m).isNone
    · rw [Option.isNone_iff_eq_none] at hx
      rw [generateNamedImport_miss im m s h hx]
      exact ⟨rfl, rfl⟩
    · obtain ⟨a, ha⟩ := lookup_some_of_not_isNone hx
      rw [generateNamedImport_hit im m s a h ha]
      exact ⟨rfl, rfl⟩
  · rw [generateNamedImport_skip im m s (by simpa using h)]
    exact ⟨rfl, rfl⟩

lemma generateNamedImport_preserves_lookup (im : ImportManager) (x y m a : String)
    (hl : im.specifierToIdentifier.lookup m = some a) :
    ((im.generateNamedImport x y).2).specifierToIdentifier.lookup m = some a := by
  by_cases h : im.rewriter.shouldImportSymbol (im.rewriter.rewriteSymbol y x) x
  · by_cases hx : (im.specifierToIdentifier.lookup x).isNone
    · rw [Option.isNone_iff_eq_none] at hx
      rw [generateNamedImport_miss im x y h hx]
      simp [List.lookup_append, hl]
    · obtain ⟨b, hb⟩ := lookup_some_of_not_isNone hx
      rw [generateNamedImport_hit im x y b h hb]
      exact hl
  · rw [generateNamedImport_skip im x y (by simpa using h)]
    exact hl

lemma runCalls_preserves_fields :
    ∀ (calls : List (String × String)) (im : ImportManager),
      (runCalls im calls).rewriter = im.rewriter ∧ (runCalls im calls).pfx = im.pfx := by
  intro calls
  induction calls with
  | nil => intro im; exact ⟨rfl, rfl⟩
  | cons c rest ih =>
    intro im
    rw [runCalls]
    obtain ⟨h1, h2⟩ := ih (im.generateNamedImport c.1 c.2).2
    obtain ⟨g1, g2⟩ := generateNamedImport_preserves_fields im c.1 c.2
    exact ⟨h1.trans g1, h2.trans g2⟩

lemma runCalls_preserves_lookup :
    ∀ (calls : List (String × String)) (im : ImportManager) (m a : String),
      im.specifierToIdentifier.lookup m = some a →
      (runCalls im calls).specifierToIdentifier.lookup m = some a := by
  intro calls
  induction calls with
  | nil => intro im m a h; exact h
  | cons c rest ih =>
    intro im m a h
    rw [runCalls]
    exact ih _ m a (generateNamedImport_preserves_lookup im c.1 c.2 m a h)

lemma aliasEntries_cons (p : String) (base : Nat) (m : String) (rest : List String) :
    aliasEntries p base (m :: rest)
      = (m, p ++ Nat.repr base) :: aliasEntries p (base + 1) rest := rfl

/-- The association list after running a call sequence: the starting entries,
followed by one fresh entry per newly imported module, aliased with
consecutive sequence numbers continuing the starting counter. -/
lemma runCalls_state :
    ∀ (calls : List (String × String)) (im : ImportManager) (seen : List String),
      (∀ x, x ∈ seen ↔ x ∈ im.specifierToIdentifier.map Prod.fst) →
      (runCalls im calls).specifierToIdentifier
          = im.specifierToIdentifier
            ++ aliasEntries im.pfx im.nextIndex (newlyImported im.rewriter seen calls)
      ∧ (runCalls im calls).nextIndex
          = im.nextIndex + (newlyImported im.rewriter seen calls).length := by
  intro calls
  induction calls with
  | nil => intro im seen hseen; simp [runCalls, newlyImported, aliasEntries]
  | cons c rest ih =>
    intro im seen hseen
    obtain ⟨m, s⟩ := c
    rw [runCalls]
    by_cases h : im.rewriter.shouldImportSymbol (im.rewriter.rewriteSymbol s m) m
    · by_cases hx : (im.specifierToIdentifier.lookup m).isNone
      · -- a fresh alias is allocated for m
        rw [Option.isNone_iff_eq_none] at hx
        have hnotkeys := not_mem_keys_of_lookup_none hx
        have hnotseen : m ∉ seen := fun hm => hnotkeys ((hseen m).mp hm)
        rw [generateNamedImport_miss im m s h hx]
        have hcond : (shouldAllocate im.rewriter (m, s) && !(seen.contains m)) = true := by
          simp [shouldAllocate, h, contains_eq_decide_mem, hnotseen]
        obtain ⟨h1, h2⟩ := ih
          { im with
            specifierToIdentifier :=
              im.specifierToIdentifier ++ [(m, im.pfx ++ Nat.repr im.nextIndex)]
            nextIndex := im.nextIndex + 1 }
          (m :: seen)
          (by
            intro x
            simp only [List.mem_cons, List.map_append, List.mem_append, hseen x]
            simp [or_comm])
        constructor
        · rw [h1]
          simp only [newlyImported, hcond, if_true, aliasEntries_cons]
          simp
        · rw [h2]
          simp only [newlyImported, hcond, if_true]
          simp [Nat.add_comm, Nat.add_assoc]
          omega
      · -- m is already aliased: the state is unchanged
        obtain ⟨a, ha⟩ := lookup_some_of_not_isNone hx
        have hkeys := mem_keys_of_lookup_some ha
        have hinseen : m ∈ seen := (hseen m).mpr hkeys
        rw [generateNamedImport_hit im m s a h ha]
        obtain ⟨h1, h2⟩ := ih im seen hseen
        constructor
        · rw [h1]; simp [newlyImported, hinseen]
        · rw [h2]; simp [newlyImported, hinseen]
    · -- the rewrite policy elides the import: the state is unchanged
      rw [generateNamedImport_skip im m s (by simpa using h)]
      obtain ⟨h1, h2⟩ := ih im seen hseen
      constructor
      · rw [h1]; simp [newlyImported, shouldAllocate, h]
      · rw [h2]; simp [newlyImported, shouldAllocate, h]

/-- Every alias stored by `aliasEntries` from `base` onward has the shape
`p ++ Nat.repr k` for some sequence number `k ≥ base`. -/
lemma lookup_aliasEntries_range (p : String) :
    ∀ (mods : List String) (base : Nat) (m a : String),
      (aliasEntries p base mods).lookup m = some a →
      ∃ k, base ≤ k ∧ a = p ++ Nat.repr k := by
  intro mods
  induction mods with
  | nil => intro base m a h; simp [aliasEntries] at h
  | cons x rest ih =>
    intro base m a h
    rw [aliasEntries_cons] at h
    by_cases hbeq : (m == x) = true
    · simp [List.lookup_cons, hbeq] at h
      exact ⟨base, Nat.le_refl base, h.symm⟩
    · have hbeq2 : (m == x) = false := by simpa using hbeq
      simp only [List.lookup_cons, hbeq2] at h
      obtain ⟨k, hk, ha⟩ := ih (base + 1) m a h
      exact ⟨k, by omega, ha⟩

/-- Looking up two different modules in an alias table yields different alias
strings: the sequence numbers differ, and decimal rendering is injective. -/
lemma lookup_aliasEntries_inj (p : String) :
    ∀ (mods : List String) (base : Nat) (m m' a a' : String),
      (aliasEntries p base mods).lookup m = some a →
      (aliasEntries p base mods).lookup m' = some a' →
      m ≠ m' → a ≠ a' := by
  intro mods
  induction mods with
  | nil => intro base m m' a a' h; simp [aliasEntries] at h
  | cons x rest ih =>
    intro base m m' a a' h h' hne
    rw [aliasEntries_cons] at h h'
    by_cases hbeq : (m == x) = true
    · have hmx : m = x := by simpa using hbeq
      have hbeq' : (m' == x) = false := by
        simp
        rw [← hmx]
        exact fun he => hne he.symm
      simp [List.lookup_cons, hbeq] at h
      simp only [List.lookup_cons, hbeq'] at h'
      obtain ⟨k, hk, ha'⟩ := lookup_aliasEntries_range p rest (base + 1) m' a' h'
      rw [← h, ha']
      intro hcontra
      have := append_natRepr_inj hcontra
      omega
    · have hbeq2 : (m == x) = false := by simpa using hbeq
      simp only [List.lookup_cons, hbeq2] at h
      by_cases hbeq' : (m' == x) = true
      · simp [List.lookup_cons, hbeq'] at h'
        obtain ⟨k, hk, ha⟩ := lookup_aliasEntries_range p rest (base + 1) m a h
        rw [← h', ha]
        intro hcontra
        have := append_natRepr_inj hcontra
        omega
      · have hbeq2' : (m' == x) = false := by simpa using hbeq'
        simp only [List.lookup_cons, hbeq2'] at h'
        exact ih (base + 1) m m' a a' h h' hne

/-- A module listed by `newlyImported` was not among the modules already seen. -/
lemma newlyImported_not_seen (rw : ImportRewriter) :
    ∀ (calls : List (String × String)) (seen : List String) (m : String),
      m ∈ newlyImported rw seen calls → m ∉ seen := by
  intro calls
  induction calls with
  | nil => intro seen m h; simp [newlyImported] at h
  | cons c rest ih =>
    intro seen m h
    rw [newlyImported] at h
    cases hca : (shouldAllocate rw c && !(seen.contains c.1)) with
    | false =>
      simp only [hca] at h
      simp at h
      exact ih seen m h
    | true =>
      simp only [hca] at h
      simp at h
      have hnots : c.1 ∉ seen := by
        have h2 := (Bool.and_eq_true _ _).mp hca
        simpa [contains_eq_decide_mem] using h2.2
      rcases h with hm | hm
      · rw [hm]; exact hnots
      · intro hmem
        exact ih (c.1 :: seen) m hm (List.mem_cons_of_mem _ hmem)

/-- `newlyImported` lists each module at most once. -/
lemma newlyImported_nodup (rw : ImportRewriter) :
    ∀ (calls : List (String × String)) (seen : List String),
      (newlyImported rw seen calls).Nodup := by
  intro calls
  induction calls with
  | nil => intro seen; simp [newlyImported]
  | cons c rest ih =>
    intro seen
    rw [newlyImported]
    cases hca : (shouldAllocate rw c && !(seen.contains c.1)) with
    | false =>
      simp
      exact ih seen
    | true =>
      rw [if_pos rfl]
      refine List.nodup_cons.mpr ⟨?_, ih (c.1 :: seen)⟩
      intro hmem
      exact newlyImported_not_seen rw rest (c.1 :: seen) c.1 hmem (List.mem_cons_self _ _)

/-- `getAllImports` maps the rewrite policy over the alias table entries. -/
lemma map_aliasEntries (rw : ImportRewriter) (p contextPath : String) :
    ∀ (mods : List String) (base : Nat),
      (aliasEntries p base mods).map
          (fun q => Import.mk (rw.rewriteSpecifier q.1 contextPath) q.2)
        = importEntries rw p contextPath base mods := by
  intro mods
  induction mods with
  | nil => intro base; rfl
  | cons x rest ih =>
    intro base
    rw [aliasEntries_cons]
    simp only [List.map_cons, importEntries, ih (base + 1)]

lemma aliasEntries_append_singleton (p : String) :
    ∀ (mods : List String) (base : Nat) (m : String),
      aliasEntries p base mods ++ [(m, p ++ Nat.repr (base + mods.length))]
        = aliasEntries p base (mods ++ [m]) := by
  intro mods
  induction mods with
  | nil => intro base m; simp [aliasEntries]
  | cons x rest ih =>
    intro base m
    have harith : base + (x :: rest).length = base + 1 + rest.length := by
      simp only [List.length_cons]
      omega
    calc aliasEntries p base (x :: rest) ++ [(m, p ++ Nat.repr (base + (x :: rest).length))]
        = (x, p ++ Nat.repr base) :: (aliasEntries p (base + 1) rest
            ++ [(m, p ++ Nat.repr (base + 1 + rest.length))]) := by
          rw [harith, aliasEntries_cons, List.cons_append]
      _ = (x, p ++ Nat.repr base) :: aliasEntries p (base + 1) (rest ++ [m]) := by
          rw [ih (base + 1) m]
      _ = aliasEntries p base ((x :: rest) ++ [m]) := by
          rw [List.cons_append, aliasEntries_cons]

/-- One `generateNamedImport` step under the no-op rewriter, starting from a
state whose alias table is `aliasEntries "i" 0 mods`: the call returns some
alias, and the state keeps the same shape with at most one module appended. -/
lemma generateNamedImport_noop_step (im : ImportManager) (m s : String)
    (hrw : im.rewriter = NoopImportRewriter) (hpfx : im.pfx = "i")
    (mods : List String)
    (hmap : im.specifierToIdentifier = aliasEntries "i" 0 mods)
    (hnext : im.nextIndex = mods.length) :
    ∃ (a : String) (mods' : List String),
      (im.generateNamedImport m s).1.moduleImport = some a
      ∧ ((im.generateNamedImport m s).2).specifierToIdentifier = aliasEntries "i" 0 mods'
      ∧ ((im.generateNamedImport m s).2).nextIndex = mods'.length
      ∧ ((im.generateNamedImport m s).2).rewriter = NoopImportRewriter
      ∧ ((im.generateNamedImport m s).2).pfx = "i"
      ∧ ((im.generateNamedImport m s).2).specifierToIdentifier.lookup m = some a := by
  have hshould : im.rewriter.shouldImportSymbol (im.rewriter.rewriteSymbol s m) m = true := by
    rw [hrw]; rfl
  by_cases hx : (im.specifierToIdentifier.lookup m).isNone
  · rw [Option.isNone_iff_eq_none] at hx
    rw [generateNamedImport_miss im m s hshould hx]
    refine ⟨im.pfx ++ Nat.repr im.nextIndex, mods ++ [m], rfl, ?_, ?_, hrw, hpfx, ?_⟩
    · simp only
      rw [hmap, hpfx, hnext, ← aliasEntries_append_singleton "i" mods 0 m, Nat.zero_add]
    · simp [hnext]
    · simp only
      rw [List.lookup_append, hx]
      simp
  · obtain ⟨a, ha⟩ := lookup_some_of_not_isNone hx
    rw [generateNamedImport_hit im m s a hshould ha]
    exact ⟨a, mods, rfl, hmap, hnext, hrw, hpfx, ha⟩

/-- C3: on one `ImportManager` with the default (identity) rewrite policy,
(1) resolving the same (module, symbol) pair again — before or after any other
calls — returns the same module alias; (2) resolving two different module
names returns two aliases that are both present and distinct; (3) the alias
table always consists of `"i" ++ seq` aliases handed out in first-seen order
with consecutive, never-reused sequence numbers. -/
theorem generateNamedImport_alias_determinism :
    (∀ (pre mid : List (String × String)) (m s : String),
        (((runCalls ((runCalls newImportManager pre).generateNamedImport m s).2 mid
            ).generateNamedImport m s).1).moduleImport
          = (((runCalls newImportManager pre).generateNamedImport m s).1).moduleImport)
    ∧ (∀ (calls : List (String × String)) (m s m' s' : String), m ≠ m' →
        ((runCalls newImportManager calls).generateNamedImport m s).1.moduleImport.isSome = true
        ∧ ((((runCalls newImportManager calls).generateNamedImport m s).2
            ).generateNamedImport m' s').1.moduleImport.isSome = true
        ∧ ((runCalls newImportManager calls).generateNamedImport m s).1.moduleImport
            ≠ ((((runCalls newImportManager calls).generateNamedImport m s).2
                ).generateNamedImport m' s').1.moduleImport)
    ∧ (∀ calls : List (String × String),
        (runCalls newImportManager calls).specifierToIdentifier
          = aliasEntries "i" 0 (newlyImported NoopImportRewriter [] calls)) := by
  have hfreshchar : ∀ calls : List (String × String),
      (runCalls newImportManager calls).specifierToIdentifier
          = aliasEntries "i" 0 (newlyImported NoopImportRewriter [] calls)
      ∧ (runCalls newImportManager calls).nextIndex
          = (newlyImported NoopImportRewriter [] calls).length := by
    intro calls
    obtain ⟨h1, h2⟩ := runCalls_state calls newImportManager []
      (by simp [newImportManager, mkImportManager])
    refine ⟨?_, ?_⟩
    · rw [h1]; rfl
    · rw [h2]; simp [newImportManager, mkImportManager]
  refine ⟨?_, ?_, fun calls => (hfreshchar calls).1⟩
  · -- same pair resolved again yields the same alias
    intro pre mid m s
    have hrw1 : (runCalls newImportManager pre).rewriter = NoopImportRewriter :=
      (runCalls_preserves_fields pre newImportManager).1
    have hpfx1 : (runCalls newImportManager pre).pfx = "i" :=
      (runCalls_preserves_fields pre newImportManager).2
    obtain ⟨a, mods2, hres, hmap2, hnext2, hrw2, hpfx2, hlook2⟩ :=
      generateNamedImport_noop_step (runCalls newImportManager pre) m s hrw1 hpfx1
        (newlyImported NoopImportRewriter [] pre)
        (hfreshchar pre).1 (hfreshchar pre).2
    have hlook3 := runCalls_preserves_lookup mid _ m a hlook2
    have hrw3 : (runCalls ((runCalls newImportManager pre).generateNamedImport m s).2 mid
        ).rewriter = NoopImportRewriter :=
      ((runCalls_preserves_fields mid _).1).trans hrw2
    rw [generateNamedImport_hit _ m s a (by rw [hrw3]; rfl) hlook3, hres]
  · -- two different modules never collide on alias text
    intro calls m s m' s' hne
    have hrw1 : (runCalls newImportManager calls).rewriter = NoopImportRewriter :=
      (runCalls_preserves_fields calls newImportManager).1
    have hpfx1 : (runCalls newImportManager calls).pfx = "i" :=
      (runCalls_preserves_fields calls newImportManager).2
    obtain ⟨a, mods2, hres, hmap2, hnext2, hrw2, hpfx2, hlook2⟩ :=
      generateNamedImport_noop_step (runCalls newImportManager calls) m s hrw1 hpfx1
        (newlyImported NoopImportRewriter [] calls)
        (hfreshchar calls).1 (hfreshchar calls).2
    obtain ⟨a', mods3, hres', hmap3, hnext3, hrw3, hpfx3, hlook3⟩ :=
      generateNamedImport_noop_step
        ((runCalls newImportManager calls).generateNamedImport m s).2 m' s'
        hrw2 hpfx2 mods2 hmap2 hnext2
    have hlookm : ((((runCalls newImportManager calls).generateNamedImport m s).2
        ).generateNamedImport m' s').2.specifierToIdentifier.lookup m = some a :=
      generateNamedImport_preserves_lookup _ m' s' m a hlook2
    rw [hmap3] at hlookm hlook3
    have hdiff : a ≠ a' := lookup_aliasEntries_inj "i" mods3 0 m m' a a' hlookm hlook3 hne
    refine ⟨by rw [hres]; rfl, by rw [hres']; rfl, ?_⟩
    rw [hres, hres']
    simp [hdiff]

/-- Witness for C3 at concrete inputs: on a fresh default manager, importing
from two different modules yields distinct aliases. -/
theorem generateNamedImport_alias_determinism_witness :
    ((runCalls newImportManager []).generateNamedImport "rxjs" "Observable").1.moduleImport
      ≠ ((((runCalls newImportManager []).generateNamedImport "rxjs" "Observable").2
          ).generateNamedImport "@angular/core" "Observable").1.moduleImport :=
  (generateNamedImport_alias_determinism.2.1 [] "rxjs" "Observable" "@angular/core" "Observable"
    (by decide)).2.2

/-- C6: after any sequence of `generateNamedImport` calls on a fresh manager,
`getAllImports` returns one record per imported module — each module listed
once (the list is duplicate-free), in the order of first alias allocation,
regardless of later re-references — with each specifier rewritten by the
rewrite policy relative to the context path. -/
theorem getAllImports_first_seen_order (rw : ImportRewriter) (p : String)
    (calls : List (String × String)) (contextPath : String) :
    (runCalls (mkImportManager rw p) calls).getAllImports contextPath
        = importEntries rw p contextPath 0 (newlyImported rw [] calls)
    ∧ (newlyImported rw [] calls).Nodup := by
  constructor
  · obtain ⟨h1, _⟩ := runCalls_state calls (mkImportManager rw p) []
      (by simp [mkImportManager])
    rw [ImportManager.getAllImports,
      (runCalls_preserves_fields calls (mkImportManager rw p)).1, h1]
    simp only [mkImportManager, List.nil_append]
    exact map_aliasEntries rw p contextPath (newlyImported rw [] calls) 0
  · exact newlyImported_nodup rw calls []

/-- C9: a `generateNamedImport` call the rewrite policy elides (by returning
`false` from `shouldImportSymbol`) returns before touching the manager: the
module-to-alias map and the alias counter are unchanged (the whole state is
returned as-is), the result carries no module alias, and a later
`getAllImports` is exactly what it would have been without the call. -/
theorem generateNamedImport_no_import_frame (im : ImportManager)
    (moduleName originalSymbol : String)
    (h : im.rewriter.shouldImportSymbol
        (im.rewriter.rewriteSymbol originalSymbol moduleName) moduleName = false) :
    (im.generateNamedImport moduleName originalSymbol).2 = im
    ∧ (im.generateNamedImport moduleName originalSymbol).1
        = { moduleImport := none,
            symbol := im.rewriter.rewriteSymbol originalSymbol moduleName }
    ∧ ∀ contextPath,
        ((im.generateNamedImport moduleName originalSymbol).2).getAllImports contextPath
          = im.getAllImports contextPath := by
  rw [generateNamedImport_skip im moduleName originalSymbol h]
  exact ⟨rfl, rfl, fun _ => rfl⟩

/-- A rewrite policy that never imports, used as a concrete witness input. -/
def neverImportRewriter : ImportRewriter :=
  { rewriteSymbol := fun s _ => s
    shouldImportSymbol := fun _ _ => false
    rewriteSpecifier := fun s _ => s }

/-- Witness for C9 at a concrete manager and call. -/
theorem generateNamedImport_no_import_frame_witness :
    ((mkImportManager neverImportRewriter "i").generateNamedImport "rxjs" "Observable").2
      = mkImportManager neverImportRewriter "i" :=
  (generateNamedImport_no_import_frame (mkImportManager neverImportRewriter "i")
    "rxjs" "Observable" rfl).1

lemma exceptBind_ok {e a b : Type} (x : a) (f : a → Except e b) :
    (Bind.bind (Except.ok x) f : Except e b) = f x := rfl

/-- C1 is violated by `visitWritePropExpr` (translator.ts:219-223): a
write-property node translated in expression mode produces a bare,
unparenthesized assignment expression. -/
theorem writePropExpr_expression_mode_not_parenthesized :
    visitExpr (.writeProp (.readVar "o" none) "p" (.literal (.intVal 1) none) none)
        ⟨false⟩ initState
      = .ok (.binary (.propAccess (.ident "o") "p") .equals (.lit (.intVal 1)), initState)
    ∧ (TsExpr.binary (.propAccess (.ident "o") "p") .equals (.lit (.intVal 1))).isParen
        = false :=
  ⟨rfl, rfl⟩

/-- C1 (amended): write-variable and write-indexed assignments are wrapped in
parentheses exactly when the context is expression-mode and emitted bare in
statement-mode; a write-property assignment is never parenthesized in either
mode. -/
theorem assignment_parenthesization_spec (ctx : Context) (st : VisitorState) :
    (∀ (name : String) (value : Expr) (sp : Option SourceSpan) (v : TsExpr)
        (st' : VisitorState),
        visitExpr value ctx st = .ok (v, st') →
        visitExpr (.writeVar name value sp) ctx st
          = .ok (if ctx.isStatement then TsExpr.binary (.ident name) .equals v
                 else .paren (.binary (.ident name) .equals v), st'))
    ∧ (∀ (receiver index value : Expr) (sp : Option SourceSpan) (r i v : TsExpr)
          (st1 st2 st3 : VisitorState),
        visitExpr receiver ctx.withExpressionMode st = .ok (r, st1) →
        visitExpr index ctx.withExpressionMode st1 = .ok (i, st2) →
        visitExpr value ctx.withExpressionMode st2 = .ok (v, st3) →
        visitExpr (.writeKey receiver index value sp) ctx st
          = .ok (if ctx.isStatement then TsExpr.binary (.elemAccess r i) .equals v
                 else .paren (.binary (.elemAccess r i) .equals v), st3))
    ∧ (∀ (receiver : Expr) (name : String) (value : Expr) (sp : Option SourceSpan)
          (r v : TsExpr) (st1 st2 : VisitorState),
        visitExpr receiver ctx st = .ok (r, st1) →
        visitExpr value ctx st1 = .ok (v, st2) →
        visitExpr (.writeProp receiver name value sp) ctx st
          = .ok (.binary (.propAccess r name) .equals v, st2)) := by
  refine ⟨?_, ?_, ?_⟩
  · intro name value sp v st' h
    simp only [visitExpr, h, exceptBind_ok]
  · intro receiver index value sp r i v st1 st2 st3 h1 h2 h3
    simp only [visitExpr, h1, exceptBind_ok, h2, h3]
  · intro receiver name value sp r v st1 st2 h1 h2
    simp only [visitExpr, h1, exceptBind_ok, h2]

/-- Witness for the amended C1 at a concrete expression-mode input. -/
theorem assignment_parenthesization_spec_witness :
    visitExpr (.writeVar "x" (.literal (.intVal 1) none) none) ⟨false⟩ initState
      = .ok (if (Context.mk false).isStatement then
               TsExpr.binary (.ident "x") .equals (.lit (.intVal 1))
             else .paren (.binary (.ident "x") .equals (.lit (.intVal 1))), initState) :=
  (assignment_parenthesization_spec ⟨false⟩ initState).1 "x" (.literal (.intVal 1) none) none
    (.lit (.intVal 1)) initState rfl

/-- C2 is violated by `visitWritePropExpr`: in statement mode the value
operand is visited in statement mode too, so a nested assignment used as the
value is emitted bare, whereas an expression-mode visit of the same operand
parenthesizes it. -/
theorem writePropExpr_statement_mode_operand_context :
    visitExpr (.writeProp (.readVar "o" none) "p"
        (.writeVar "x" (.literal (.intVal 1) none) none) none) ⟨true⟩ initState
      = .ok (.binary (.propAccess (.ident "o") "p") .equals
          (.binary (.ident "x") .equals (.lit (.intVal 1))), initState)
    ∧ visitExpr (.writeVar "x" (.literal (.intVal 1) none) none)
          (Context.mk true).withExpressionMode initState
        = .ok (.paren (.binary (.ident "x") .equals (.lit (.intVal 1))), initState) :=
  ⟨rfl, rfl⟩

/-- C2 (amended): a write-indexed node visits its receiver, index and value in
expression mode regardless of the incoming context; a write-property node
visits its receiver and value in the incoming context itself. -/
theorem write_operand_context_spec (ctx : Context) (st : VisitorState) :
    (∀ (receiver index value : Expr) (sp : Option SourceSpan),
        visitExpr (.writeKey receiver index value sp) ctx st
          = (visitExpr receiver ctx.withExpressionMode st).bind fun rp =>
              (visitExpr index ctx.withExpressionMode rp.2).bind fun ip =>
                (visitExpr value ctx.withExpressionMode ip.2).bind fun vp =>
                  .ok (if ctx.isStatement then
                         TsExpr.binary (.elemAccess rp.1 ip.1) .equals vp.1
                       else .paren (.binary (.elemAccess rp.1 ip.1) .equals vp.1), vp.2))
    ∧ (∀ (receiver : Expr) (name : String) (value : Expr) (sp : Option SourceSpan),
        visitExpr (.writeProp receiver name value sp) ctx st
          = (visitExpr receiver ctx st).bind fun rp =>
              (visitExpr value ctx rp.2).bind fun vp =>
                .ok (TsExpr.binary (.propAccess rp.1 name) .equals vp.1, vp.2)) := by
  constructor
  · intro receiver index value sp
    simp only [visitExpr]
    rcases hr : visitExpr receiver ctx.withExpressionMode st with er | ⟨r, st1⟩
    · rfl
    · rcases hi : visitExpr index ctx.withExpressionMode st1 with ei | ⟨i, st2⟩
      · rfl
      · rcases hv : visitExpr value ctx.withExpressionMode st2 with ev | ⟨v, st3⟩
        · rfl
        · rfl
  · intro receiver name value sp
    simp only [visitExpr]
    rcases hr : visitExpr receiver ctx st with er | ⟨r, st1⟩
    · rfl
    · rcases hv : visitExpr value ctx st1 with ev | ⟨v, st2⟩
      · rfl
      · rfl

/-- C4: translating an external reference: a null symbol name throws; a null
module name yields the bare identifier and leaves the whole visitor state
(including the `ImportManager`) untouched; a non-null module name resolved to
a null alias yields the bare (rewritten) identifier with the state untouched;
a non-null alias yields the qualified reference `alias.symbol` with the
updated `ImportManager`. -/
theorem visitExternalExpr_spec (ctx : Context) (st : VisitorState) (sp : Option SourceSpan) :
    (∀ mn : Option String,
        visitExpr (.externalExpr mn none sp) ctx st
          = .error (.thrown "Import unknown module or symbol"))
    ∧ (∀ n : String,
        visitExpr (.externalExpr none (some n) sp) ctx st = .ok (.ident n, st))
    ∧ (∀ mn n : String,
        st.imports.rewriter.shouldImportSymbol (st.imports.rewriter.rewriteSymbol n mn) mn
            = false →
        visitExpr (.externalExpr (some mn) (some n) sp) ctx st
          = .ok (.ident (st.imports.rewriter.rewriteSymbol n mn), st))
    ∧ (∀ (mn n ali symb : String) (im' : ImportManager),
        st.imports.generateNamedImport mn n
            = ({ moduleImport := some ali, symbol := symb }, im') →
        visitExpr (.externalExpr (some mn) (some n) sp) ctx st
          = .ok (.propAccess (.ident ali) symb, { st with imports := im' })) := by
  refine ⟨?_, ?_, ?_, ?_⟩
  · intro mn; rfl
  · intro n; rfl
  · intro mn n h
    simp only [visitExpr, generateNamedImport_skip st.imports mn n h]
  · intro mn n ali symb im' h
    simp only [visitExpr, h]

/-- Witness for C4: a null-module reference to `Array` stays a bare
identifier with no import allocated; an import through the default manager
yields the qualified reference `i0.Observable`. -/
theorem visitExternalExpr_spec_witness :
    visitExpr (.externalExpr none (some "Array") none) ⟨false⟩ initState
      = .ok (.ident "Array", initState)
    ∧ visitExpr (.externalExpr (some "rxjs") (some "Observable") none) ⟨false⟩ initState
      = .ok (.propAccess (.ident "i0") "Observable",
          { initState with imports :=
              { rewriter := NoopImportRewriter, pfx := "i"
                specifierToIdentifier := [("rxjs", "i0")], nextIndex := 1 } }) :=
  ⟨(visitExternalExpr_spec ⟨false⟩ initState none).2.1 "Array",
   (visitExternalExpr_spec ⟨false⟩ initState none).2.2.2 "rxjs" "Observable" "i0" "Observable"
     { rewriter := NoopImportRewriter, pfx := "i"
       specifierToIdentifier := [("rxjs", "i0")], nextIndex := 1 } rfl⟩

/-- C7: a binary-operator node whose tag misses the static table raises an
error naming the unknown operator and produces no output node; a tag present
in the table produces a binary expression with the mapped target token. -/
theorem visitBinaryOperatorExpr_spec (ctx : Context) (st : VisitorState) :
    (∀ (op : Nat) (lhs rhs : Expr) (sp : Option SourceSpan),
        BINARY_OPERATORS op = none →
        visitExpr (.binaryOp op lhs rhs sp) ctx st
          = .error (.thrown ("Unknown binary operator: " ++ binaryOperatorName op)))
    ∧ (∀ (op : Nat) (tok : TsBinaryOperatorToken) (lhs rhs : Expr) (sp : Option SourceSpan)
          (l r : TsExpr) (st1 st2 : VisitorState),
        BINARY_OPERATORS op = some tok →
        visitExpr lhs ctx st = .ok (l, st1) →
        visitExpr rhs ctx st1 = .ok (r, st2) →
        visitExpr (.binaryOp op lhs rhs sp) ctx st = .ok (.binary l tok r, st2)) := by
  constructor
  · intro op lhs rhs sp hop
    simp only [visitExpr, hop]
  · intro op tok lhs rhs sp l r st1 st2 hop h1 h2
    simp only [visitExpr, hop, h1, exceptBind_ok, h2]

/-- Witness for C7: tag 16 lies outside the operator table and is rejected;
tag `Plus` maps to the `+` token. -/
theorem visitBinaryOperatorExpr_spec_witness :
    visitExpr (.binaryOp 16 (.literal (.intVal 1) none) (.literal (.intVal 2) none) none)
        ⟨false⟩ initState
      = .error (.thrown ("Unknown binary operator: " ++ binaryOperatorName 16))
    ∧ visitExpr (.binaryOp BinaryOperator.Plus (.literal (.intVal 1) none)
        (.literal (.intVal 2) none) none) ⟨false⟩ initState
      = .ok (.binary (.lit (.intVal 1)) .plus (.lit (.intVal 2)), initState) :=
  ⟨(visitBinaryOperatorExpr_spec ⟨false⟩ initState).1 16 _ _ none rfl,
   (visitBinaryOperatorExpr_spec ⟨false⟩ initState).2 BinaryOperator.Plus .plus _ _ none
     (.lit (.intVal 1)) (.lit (.intVal 2)) initState initState rfl rfl rfl⟩

/-- C10: a conditional node whose false case is absent fails with the
null-dereference runtime error (from `ast.falseCase !.visitExpression`),
producing neither an output node nor a diagnosable thrown error. -/
theorem visitConditionalExpr_null_falseCase (ctx : Context) (st : VisitorState)
    (condition trueCase : Expr) (sp : Option SourceSpan)
    (c t : TsExpr) (st1 st2 : VisitorState)
    (h1 : visitExpr condition ctx st = .ok (c, st1))
    (h2 : visitExpr trueCase ctx st1 = .ok (t, st2)) :
    visitExpr (.conditional condition trueCase none sp) ctx st
      = .error .nullDereference := by
  simp only [visitExpr, h1, exceptBind_ok, h2]

/-- Witness for C10 at a concrete conditional with no false case. -/
theorem visitConditionalExpr_null_falseCase_witness :
    visitExpr (.conditional (.readVar "c" none) (.literal (.intVal 1) none) none none)
        ⟨false⟩ initState
      = .error .nullDereference :=
  visitConditionalExpr_null_falseCase ⟨false⟩ initState (.readVar "c" none)
    (.literal (.intVal 1) none) none (.ident "c") (.lit (.intVal 1)) initState initState
    rfl rfl

/-- C8 is violated by `visitConditionalExpr` (translator.ts:298-302): it never
calls `setSourceMapRange`, so a conditional node carrying a source span with
a file URL still produces an unannotated output node. -/
theorem visitConditionalExpr_not_annotated :
    visitExpr (.conditional (.literal (.intVal 1) none) (.literal (.intVal 2) none)
        (some (.literal (.intVal 3) none))
        (some ⟨0, 5, ⟨"app.ts", "source text"⟩⟩)) ⟨false⟩ initState
      = .ok (.cond (.lit (.intVal 1)) (.lit (.intVal 2)) (.lit (.intVal 3)), initState)
    ∧ (TsExpr.cond (.lit (.intVal 1)) (.lit (.intVal 2)) (.lit (.intVal 3))).isAnnotated
        = false :=
  ⟨rfl, rfl⟩

/-- C8 (amended): the visits that call `setSourceMapRange` — read-variable
and literal among the embedded kinds — annotate their output node with the
span's start and end offsets and the per-URL cached source handle: a cache
hit reuses the stored handle with the state unchanged (so all nodes from one
URL share one handle), a cache miss allocates the next handle id and stores
it; a node without a span (or with an empty URL) is left unannotated; other
expression visits, such as the conditional, never annotate their output even
when a span is present. -/
theorem sourceMap_annotation_spec (ctx : Context) (st : VisitorState) :
    (∀ (name : String) (sp : SourceSpan) (h : Nat),
        sp.file.url ≠ "" →
        st.externalSourceFiles.lookup sp.file.url = some h →
        visitExpr (.readVar name (some sp)) ctx st
          = .ok (.annotated ⟨sp.startOffset, sp.endOffset, h⟩ (.ident name), st))
    ∧ (∀ (name : String) (sp : SourceSpan),
        sp.file.url ≠ "" →
        st.externalSourceFiles.lookup sp.file.url = none →
        visitExpr (.readVar name (some sp)) ctx st
          = .ok (.annotated ⟨sp.startOffset, sp.endOffset, st.nextHandleId⟩ (.ident name),
              { st with
                externalSourceFiles :=
                  st.externalSourceFiles ++ [(sp.file.url, st.nextHandleId)]
                nextHandleId := st.nextHandleId + 1 }))
    ∧ (∀ name : String, visitExpr (.readVar name none) ctx st = .ok (.ident name, st))
    ∧ (∀ (k : Int) (sp : SourceSpan) (h : Nat),
        sp.file.url ≠ "" →
        st.externalSourceFiles.lookup sp.file.url = some h →
        visitExpr (.literal (.intVal k) (some sp)) ctx st
          = .ok (.annotated ⟨sp.startOffset, sp.endOffset, h⟩ (.lit (.intVal k)), st))
    ∧ (∀ (condition trueCase falseCase : Expr) (sp : Option SourceSpan)
          (c t f : TsExpr) (st1 st2 st3 : VisitorState),
        visitExpr condition ctx st = .ok (c, st1) →
        visitExpr trueCase ctx st1 = .ok (t, st2) →
        visitExpr falseCase ctx st2 = .ok (f, st3) →
        visitExpr (.conditional condition trueCase (some falseCase) sp) ctx st
          = .ok (.cond c t f, st3)) := by
  refine ⟨?_, ?_, ?_, ?_, ?_⟩
  · intro name sp h hurl hl
    simp only [visitExpr, setSourceMapRange, hl, if_neg hurl]
  · intro name sp hurl hl
    simp only [visitExpr, setSourceMapRange, hl, if_neg hurl]
  · intro name; rfl
  · intro k sp h hurl hl
    simp only [visitExpr, setSourceMapRange, hl, if_neg hurl]
  · intro condition trueCase falseCase sp c t f st1 st2 st3 h1 h2 h3
    simp only [visitExpr, h1, exceptBind_ok, h2, h3]

/-- Witness for the amended C8: a read-variable with a span on a fresh state
allocates handle 0 and caches it; a second node from the same URL against the
resulting state reuses handle 0 with the cache unchanged; a conditional with
a span stays unannotated. -/
theorem sourceMap_annotation_spec_witness :
    visitExpr (.readVar "x" (some ⟨3, 7, ⟨"app.ts", "text"⟩⟩)) ⟨false⟩ initState
      = .ok (.annotated ⟨3, 7, 0⟩ (.ident "x"),
          { initState with externalSourceFiles := [("app.ts", 0)], nextHandleId := 1 })
    ∧ visitExpr (.readVar "y" (some ⟨9, 12, ⟨"app.ts", "text"⟩⟩)) ⟨false⟩
          { initState with externalSourceFiles := [("app.ts", 0)], nextHandleId := 1 }
        = .ok (.annotated ⟨9, 12, 0⟩ (.ident "y"),
            { initState with externalSourceFiles := [("app.ts", 0)], nextHandleId := 1 }) :=
  ⟨(sourceMap_annotation_spec ⟨false⟩ initState).2.1 "x" ⟨3, 7, ⟨"app.ts", "text"⟩⟩
      (by decide) rfl,
   (sourceMap_annotation_spec ⟨false⟩
        { initState with externalSourceFiles := [("app.ts", 0)], nextHandleId := 1 }).1
      "y" ⟨9, 12, ⟨"app.ts", "text"⟩⟩ 0 (by decide) rfl⟩

lemma exceptBind_error {e a b : Type} (x : e) (f : a → Except e b) :
    (Bind.bind (Except.error x) f : Except e b) = .error x := rfl

lemma exceptMap_ok {e a b : Type} (x : a) (f : a → b) :
    (Except.ok x : Except e a).map f = .ok (f x) := rfl

lemma exceptMap_error {e a b : Type} (x : e) (f : a → b) :
    (Except.error x : Except e a).map f = .error x := rfl

lemma exceptDotBind_ok {e a b : Type} (x : a) (f : a → Except e b) :
    (Except.ok x : Except e a).bind f = f x := rfl

lemma exceptDotBind_error {e a b : Type} (x : e) (f : a → Except e b) :
    (Except.error x : Except e a).bind f = .error x := rfl

lemma drop_cons_facts {a : Type} {l : List a} {n : Nat} {x : a} {t : List a}
    (h : l.drop n = x :: t) :
    l.get? n = some x ∧ l.drop (n + 1) = t := by
  have hlt : n < l.length := by
    by_contra hge
    rw [List.drop_eq_nil_of_le (by omega)] at h
    exact List.noConfusion h
  have hd := List.drop_eq_getElem_cons (l := l) hlt
  rw [h] at hd
  injection hd with h1 h2
  constructor
  · rw [List.get?_eq_getElem?, List.getElem?_eq_getElem hlt, h1]
  · exact h2.symm

lemma visitSeq_length
    (visit : Expr → Context → VisitorState → Except TransError (TsExpr × VisitorState))
    (ctx : Context) :
    ∀ (es : List Expr) (st : VisitorState) (rs : List TsExpr) (st' : VisitorState),
      visitSeq visit ctx es st = .ok (rs, st') → rs.length = es.length := by
  intro es
  induction es with
  | nil =>
    intro st rs st' h
    simp [visitSeq] at h
    simp [← h.1]
  | cons e rest ih =>
    intro st rs st' h
    rw [visitSeq] at h
    rcases hv : visit e ctx st with er | ⟨r, st1⟩
    · rw [hv, exceptDotBind_error] at h
      exact absurd h (by simp)
    · simp only [hv, exceptDotBind_ok] at h
      rcases hs : visitSeq visit ctx rest st1 with er | ⟨rs2, st2⟩
      · simp only [hs, exceptMap_error] at h
        exact absurd h (by simp)
      · simp only [hs, exceptMap_ok] at h
        simp at h
        rw [← h.1]
        simp [ih st1 rs2 st2 hs]

/-- The spans produced by the helper's loop from translated results `rs`
starting at loop index `i`: result `k` pairs with template part `i + k`,
uniformly built as a `TemplateMiddle`. -/
def spansAux (ast : LocalizedString) : List TsExpr → Nat → List TemplateSpan
  | [], _ => []
  | r :: rest, i =>
    (r, ast.serializeI18nTemplatePart i, TemplatePartKind.middle) :: spansAux ast rest (i + 1)

/-- The helper's loop visits the embedded expressions in order and pairs the
`k`-th translated result with template part `j + 1 + k`. -/
lemma localizedSpans_spec
    (visit : Expr → Context → VisitorState → Except TransError (TsExpr × VisitorState))
    (ast : LocalizedString) (ctx : Context) :
    ∀ (es : List Expr) (j : Nat) (st : VisitorState) (rs : List TsExpr) (st' : VisitorState),
      ast.expressions.drop j = es →
      visitSeq visit ctx es st = .ok (rs, st') →
      localizedSpans visit ast ctx (j + 1) es.length st
        = .ok (spansAux ast rs (j + 1), st') := by
  intro es
  induction es with
  | nil =>
    intro j st rs st' _ hseq
    simp [visitSeq] at hseq
    rw [List.length_nil, localizedSpans, hseq.1, hseq.2]
    rfl
  | cons e rest ih =>
    intro j st rs st' hdrop hseq
    obtain ⟨hget, hdrop'⟩ := drop_cons_facts hdrop
    rw [visitSeq] at hseq
    rcases hv : visit e ctx st with er | ⟨r, st1⟩
    · rw [hv, exceptDotBind_error] at hseq
      exact absurd hseq (by simp)
    · simp only [hv, exceptDotBind_ok] at hseq
      rcases hs : visitSeq visit ctx rest st1 with er | ⟨rs2, st2⟩
      · simp only [hs, exceptMap_error] at hseq
        exact absurd hseq (by simp)
      · simp only [hs, exceptMap_ok] at hseq
        simp at hseq
        obtain ⟨⟨hrs, hst⟩⟩ : (r :: rs2 = rs ∧ st2 = st') ∧ True := ⟨hseq, trivial⟩
        rw [List.length_cons, localizedSpans]
        simp only [Nat.add_sub_cancel, hget]
        simp only [hv, exceptDotBind_ok]
        rw [ih (j + 1) st1 rs2 st2 hdrop' hs]
        simp only [exceptMap_ok]
        rw [← hrs, ← hst]
        rfl

/-- Re-tagging one span's literal as a template tail. -/
def retagSpan (q : TemplateSpan) : TemplateSpan := (q.1, q.2.1, TemplatePartKind.tail)

lemma spansAux_length (ast : LocalizedString) :
    ∀ (rs : List TsExpr) (i : Nat), (spansAux ast rs i).length = rs.length := by
  intro rs
  induction rs with
  | nil => intro i; rfl
  | cons r rest ih => intro i; simp [spansAux, ih]

lemma spansAux_getD (ast : LocalizedString) :
    ∀ (rs : List TsExpr) (i j : Nat), j < rs.length →
      (spansAux ast rs i).getD j (.ident "", "", .middle)
        = (rs.getD j (.ident ""), ast.serializeI18nTemplatePart (i + j),
           TemplatePartKind.middle) := by
  intro rs
  induction rs with
  | nil => intro i j h; simp at h
  | cons r rest ih =>
    intro i j h
    cases j with
    | zero => simp [spansAux]
    | succ j' =>
      rw [spansAux]
      simp only [List.getD_cons_succ]
      rw [ih (i + 1) j' (by simpa using h)]
      have harith : i + 1 + j' = i + (j' + 1) := by omega
      rw [harith]

lemma retagLast_length : ∀ l : List TemplateSpan, (retagLast l).length = l.length := by
  intro l
  induction l with
  | nil => rfl
  | cons q rest ih =>
    rcases rest with _ | ⟨q2, rest2⟩
    · rcases q with ⟨e, t, k⟩; rfl
    · rw [show retagLast (q :: q2 :: rest2) = q :: retagLast (q2 :: rest2) from rfl]
      simp only [List.length_cons, ih]

lemma retagLast_getD :
    ∀ (l : List TemplateSpan) (j : Nat), j < l.length →
      (retagLast l).getD j (.ident "", "", .middle)
        = (if j = l.length - 1 then retagSpan (l.getD j (.ident "", "", .middle))
           else l.getD j (.ident "", "", .middle)) := by
  intro l
  induction l with
  | nil => intro j h; simp at h
  | cons q rest ih =>
    intro j h
    rcases rest with _ | ⟨q2, rest2⟩
    · have hj : j = 0 := by simp at h; omega
      subst hj
      rcases q with ⟨e, t, k⟩
      simp [retagLast, retagSpan]
    · rw [show retagLast (q :: q2 :: rest2) = q :: retagLast (q2 :: rest2) from rfl]
      cases j with
      | zero =>
        simp only [List.getD_cons_zero]
        rw [if_neg (by simp only [List.length_cons]; omega)]
      | succ j' =>
        have hlt : j' < (q2 :: rest2).length := by
          simp only [List.length_cons] at h ⊢
          omega
        simp only [List.getD_cons_succ]
        rw [ih j' hlt]
        by_cases hj : j' = (q2 :: rest2).length - 1
        · rw [if_pos hj, if_pos (by
            simp only [List.length_cons] at hj ⊢
            omega)]
        · rw [if_neg hj, if_neg (by
            simp only [List.length_cons] at hj ⊢
            omega)]

/-- C5: the localized-string helper builds, for a single message part, a
no-substitution template tagged `$localize`; for `N + 1` message parts and
`N ≥ 1` embedded expressions (visited in order through the passed-in visitor)
it builds exactly one head — the first message part — and `N` spans, span `j`
pairing translated expression `j` with message part `j + 1`, all literals
built as middles and only the last one re-tagged as a tail; the whole
template is wrapped in a tagged-template invocation of `$localize`. -/
theorem visitLocalizedString_spec
    (visit : Expr → Context → VisitorState → Except TransError (TsExpr × VisitorState))
    (ctx : Context) :
    (∀ (p : String) (exprs : List Expr) (st : VisitorState),
        visitLocalizedString visit ⟨[p], exprs⟩ ctx st
          = .ok (.taggedNoSubTemplate (.ident "$localize") p, st))
    ∧ (∀ (parts : List String) (exprs : List Expr) (rs : List TsExpr)
          (st st' : VisitorState),
        parts.length = exprs.length + 1 →
        1 ≤ exprs.length →
        visitSeq visit ctx exprs st = .ok (rs, st') →
        visitLocalizedString visit ⟨parts, exprs⟩ ctx st
          = .ok (.taggedTemplateExpr (.ident "$localize") (parts.headD "")
              (retagLast (spansAux ⟨parts, exprs⟩ rs 1)), st')
        ∧ (retagLast (spansAux ⟨parts, exprs⟩ rs 1)).length = exprs.length
        ∧ (∀ j, j < exprs.length →
            (retagLast (spansAux ⟨parts, exprs⟩ rs 1)).getD j (.ident "", "", .middle)
              = (rs.getD j (.ident ""), parts.getD (j + 1) "",
                 if j = exprs.length - 1 then TemplatePartKind.tail
                 else TemplatePartKind.middle))) := by
  constructor
  · intro p exprs st
    rfl
  · intro parts exprs rs st st' hparts hN hseq
    have hrs : rs.length = exprs.length := visitSeq_length visit ctx exprs st rs st' hseq
    have hloop := localizedSpans_spec visit ⟨parts, exprs⟩ ctx exprs 0 st rs st' rfl hseq
    rw [Nat.zero_add] at hloop
    refine ⟨?_, ?_, ?_⟩
    · rw [visitLocalizedString]
      rw [if_neg (by simp only; omega)]
      simp only
      rw [show parts.length - 1 = exprs.length by omega, hloop, exceptMap_ok]
      rfl
    · rw [retagLast_length, spansAux_length, hrs]
    · intro j hj
      have hj1 : j < (spansAux ⟨parts, exprs⟩ rs 1).length := by
        rw [spansAux_length, hrs]; exact hj
      rw [retagLast_getD (spansAux ⟨parts, exprs⟩ rs 1) j hj1]
      rw [spansAux_getD ⟨parts, exprs⟩ rs 1 j (by rw [hrs]; exact hj)]
      simp only [spansAux_length, hrs, LocalizedString.serializeI18nTemplatePart,
        Nat.add_comm 1 j]
      by_cases hjl : j = exprs.length - 1
      · rw [if_pos hjl, if_pos hjl]
        rfl
      · rw [if_neg hjl, if_neg hjl]

/-- Witness for C5: message parts `a`, `b`, `c` with embedded variables `x`
and `y` yield head `a`, a middle `b` paired with `x`, and a tail `c` paired
with `y`. -/
theorem visitLocalizedString_spec_witness :
    visitLocalizedString visitExpr
        ⟨["a", "b", "c"], [.readVar "x" none, .readVar "y" none]⟩ ⟨false⟩ initState
      = .ok (.taggedTemplateExpr (.ident "$localize") "a"
          [(.ident "x", "b", .middle), (.ident "y", "c", .tail)], initState) :=
  ((visitLocalizedString_spec visitExpr ⟨false⟩).2 ["a", "b", "c"]
    [.readVar "x" none, .readVar "y" none] [.ident "x", .ident "y"]
    initState initState rfl (by decide) rfl).1
